import Mathlib

/-
Verification development for the web-scraping-aggregator core:
the record normalizer and result merger (src/utils/data_utils.py) and the
search orchestrator (src/core/orchestrator.py), shallowly embedded in Lean.

Modelling conventions:
- Python dicts are association lists whose update keeps the position of an
  existing key, as CPython dicts do.
- Python datetimes are a naive clock value in seconds plus an optional
  timezone offset in minutes (none = naive datetime).
- Wall-clock fields of the metadata dicts (search_time_seconds,
  search_timestamp) are not representable and are omitted from the model.
- Stdlib black boxes used by the code (html.unescape, dateutil.parser.parse)
  are parameters of the model, bundled in PyEnv.
- Scraper adapter calls are modelled by their outcome: either a raised
  exception message or a list of raw record dicts.  The outcome may depend
  on the index of the concurrent unit, reflecting that a stateful scraper
  invoked twice need not return the same data twice.
-/

/-- A Python datetime: naive clock reading in seconds together with an
optional timezone offset in minutes (none means a naive datetime). -/
structure DTime where
  clock : Int
  tz : Option Int
deriving DecidableEq

/-- The instant a datetime denotes, in seconds since the epoch. -/
def DTime.instant (d : DTime) : Int := d.clock - 60 * d.tz.getD 0

/-- Python values appearing in raw and normalized records. -/
inductive PyVal where
  | vNone
  | vStr (s : String)
  | vInt (n : Int)
  | vDT (d : DTime)
  | vList (xs : List String)
deriving DecidableEq

/-- A Python dict from string keys, as an association list. -/
abbrev PyDict := List (String × PyVal)

/-- A pandas DataFrame of records, as a list of row dicts. -/
abbrev PyFrame := List PyDict

/-- Dict lookup (first matching key; dicts built by dictSet have unique keys). -/
def dictGet (k : String) : List (String × α) → Option α
  | [] => none
  | p :: d => if p.1 = k then some p.2 else dictGet k d

/-- Dict update: replace the value in place if the key exists, else append,
matching CPython dict insertion-order semantics. -/
def dictSet (d : List (String × α)) (k : String) (v : α) : List (String × α) :=
  match d with
  | [] => [(k, v)]
  | p :: rest => if p.1 = k then (k, v) :: rest else p :: dictSet rest k v

/-- Python truthiness for the modelled values. -/
def pyTruthy : PyVal → Bool
  | .vNone => false
  | .vStr s => !(s == "")
  | .vInt n => !(n == 0)
  | .vDT _ => true
  | .vList xs => !(xs.isEmpty)

/-- Python str() coercion for the modelled values.  The datetime and list
renderings are schematic; the code only ever reaches them through
clean_text on non-string title/body values. -/
def pyStr : PyVal → String
  | .vNone => "None"
  | .vStr s => s
  | .vInt n => toString n
  | .vDT _ => "datetime"
  | .vList xs => toString xs

/-- ASCII whitespace recognized by the regex class backslash-s and str.strip. -/
def isPySpace (c : Char) : Bool :=
  c == ' ' || c == '\t' || c == '\n' || c == '\r' || c == '\x0b' || c == '\x0c'

/-- re.sub of one-or-more whitespace with a single space: the Bool state
records whether the previous character was whitespace. -/
def collapseWsAux : Bool → List Char → List Char
  | _, [] => []
  | prevSpace, c :: rest =>
    if isPySpace c then
      if prevSpace then collapseWsAux true rest
      else ' ' :: collapseWsAux true rest
    else c :: collapseWsAux false rest

def collapseWs (cs : List Char) : List Char := collapseWsAux false cs

/-- str.strip on a character list. -/
def pyStripL (cs : List Char) : List Char :=
  ((cs.dropWhile isPySpace).reverse.dropWhile isPySpace).reverse

/-- str.strip on a string. -/
def pyStrip (s : String) : String := String.mk (pyStripL s.toList)

/-- re.sub removing tag patterns: a literal less-than, one or more
characters other than greater-than, then a literal greater-than, leftmost
and non-overlapping.  The state buffers (reversed) the characters read since
an unresolved opening less-than. -/
def removeTagsAux : Option (List Char) → List Char → List Char
  | none, [] => []
  | some buf, [] => '<' :: buf.reverse
  | none, c :: rest =>
    if c = '<' then removeTagsAux (some []) rest
    else c :: removeTagsAux none rest
  | some buf, c :: rest =>
    if c = '>' then
      if buf.isEmpty then '<' :: '>' :: removeTagsAux none rest
      else removeTagsAux none rest
    else removeTagsAux (some (c :: buf)) rest

def removeTags (cs : List Char) : List Char := removeTagsAux none cs

/-- List-prefix test used by the substring test. -/
def isPrefixL : List Char → List Char → Bool
  | [], _ => true
  | _ :: _, [] => false
  | a :: as, b :: bs => a == b && isPrefixL as bs

def strContainsAux (needle : List Char) : List Char → Bool
  | [] => needle.isEmpty
  | c :: t => isPrefixL needle (c :: t) || strContainsAux needle t

/-- The Python substring test: needle in hay. -/
def strContains (hay needle : String) : Bool :=
  strContainsAux needle.toList hay.toList

/-- str.lower, ASCII. -/
def pyLower (s : String) : String := String.mk (s.toList.map Char.toLower)

/-- str.split() with no argument: split on whitespace runs, dropping
empty pieces; the accumulator holds the current token reversed. -/
def wsSplitAux : List Char → List Char → List String
  | acc, [] => if acc.isEmpty then [] else [String.mk acc.reverse]
  | acc, c :: rest =>
    if isPySpace c then
      if acc.isEmpty then wsSplitAux [] rest
      else String.mk acc.reverse :: wsSplitAux [] rest
    else wsSplitAux (c :: acc) rest

def wsSplit (s : String) : List String := wsSplitAux [] s.toList

/-- str.split on a comma, keeping empty pieces. -/
def splitCommaAux : List Char → List Char → List String
  | acc, [] => [String.mk acc.reverse]
  | acc, c :: rest =>
    if c == ',' then String.mk acc.reverse :: splitCommaAux [] rest
    else splitCommaAux (c :: acc) rest

def splitOnComma (s : String) : List String := splitCommaAux [] s.toList

/-- Stdlib functions the code calls but whose bodies are outside the
repository: html.unescape and dateutil.parser.parse (a parse returning
none models a raised ParserError). -/
structure PyEnv where
  unescape : String → String
  parseDate : String → Option DTime

/-- A concrete environment instance used by closed test theorems. -/
def envId : PyEnv := ⟨id, fun _ => none⟩

/- ------------------------------------------------------------------
src/utils/data_utils.py : DataNormalizer
------------------------------------------------------------------ -/

def standard_fields : List String :=
  ["source", "title", "body", "author", "date", "url", "score",
   "comments_count", "tags"]

def title_fields : List String := ["title", "subject", "name", "question_title"]

def body_fields : List String :=
  ["body", "content", "text", "description", "question_body", "selftext"]

def author_fields : List String :=
  ["author", "user", "username", "display_name", "owner"]

def date_fields : List String :=
  ["created_utc", "created_at", "date", "timestamp", "creation_date"]

def url_fields : List String := ["url", "permalink", "link", "html_url"]

def score_fields : List String := ["score", "ups", "upvotes", "votes", "points"]

def comments_fields : List String :=
  ["num_comments", "comments", "comment_count", "answer_count"]

/-- DataNormalizer._get_first_available: first field name that is present
in the record with a non-None value wins; otherwise the default. -/
def _get_first_available (record : PyDict) (field_names : List String)
    (default : PyVal) : PyVal :=
  match field_names with
  | [] => default
  | f :: rest =>
    match dictGet f record with
    | some v => if v = .vNone then _get_first_available record rest default else v
    | none => _get_first_available record rest default

/-- DataNormalizer.normalize_date.  A naive datetime gets tzinfo replaced by
UTC (clock unchanged); an aware datetime is returned as is; a number is a
Unix timestamp converted to UTC; a string is parsed and the same tz rule
applied to the parse result; anything else (including a failed parse)
yields none. -/
def normalize_date (env : PyEnv) : PyVal → Option DTime
  | .vNone => none
  | .vDT d => some (if d.tz = none then ⟨d.clock, some 0⟩ else d)
  | .vInt n => some ⟨n, some 0⟩
  | .vStr s =>
    match env.parseDate s with
    | some d => some (if d.tz = none then ⟨d.clock, some 0⟩ else d)
    | none => none
  | .vList _ => none

/-- DataNormalizer.clean_text: falsy input gives the empty string; otherwise
coerce to str, collapse whitespace runs to single spaces and strip, remove
tag patterns, and decode HTML entities. -/
def clean_text (env : PyEnv) (text : PyVal) : String :=
  if !(pyTruthy text) then ""
  else
    let t := pyStr text
    let t := String.mk (pyStripL (collapseWs t.toList))
    let t := String.mk (removeTags t.toList)
    env.unescape t

/-- DataNormalizer.normalize_record, mirroring the dict operations of the
source line by line: initialize all standard fields to None, set source,
map each canonical field by first-match, normalize the date, clean truthy
title and body, and extract tags. -/
def normalize_record (env : PyEnv) (record : PyDict) (source : String) : PyDict :=
  let normalized : PyDict := standard_fields.foldl (fun d f => dictSet d f .vNone) []
  let normalized := dictSet normalized "source" (.vStr source)
  let normalized := dictSet normalized "title" (_get_first_available record title_fields .vNone)
  let normalized := dictSet normalized "body" (_get_first_available record body_fields .vNone)
  let normalized := dictSet normalized "author" (_get_first_available record author_fields .vNone)
  let normalized := dictSet normalized "url" (_get_first_available record url_fields .vNone)
  let normalized := dictSet normalized "score" (_get_first_available record score_fields (.vInt 0))
  let normalized := dictSet normalized "comments_count" (_get_first_available record comments_fields (.vInt 0))
  let date_value := _get_first_available record date_fields .vNone
  let normalized := dictSet normalized "date"
    (match normalize_date env date_value with
     | some d => PyVal.vDT d
     | none => PyVal.vNone)
  let tval := (dictGet "title" normalized).getD .vNone
  let normalized :=
    if pyTruthy tval then dictSet normalized "title" (.vStr (clean_text env tval))
    else normalized
  let bval := (dictGet "body" normalized).getD .vNone
  let normalized :=
    if pyTruthy bval then dictSet normalized "body" (.vStr (clean_text env bval))
    else normalized
  let tags :=
    match dictGet "tags" record with
    | some (.vList xs) => PyVal.vList xs
    | some (.vStr s) =>
      PyVal.vList (((splitOnComma s).map pyStrip).filter (fun t => !(t == "")))
    | _ => PyVal.vList []
  dictSet normalized "tags" tags

/-- DataNormalizer.normalize_dataframe: row-wise normalization (an empty
frame stays empty). -/
def normalize_dataframe (env : PyEnv) (df : PyFrame) (source : String) : PyFrame :=
  df.map (fun r => normalize_record env r source)

/- Helper views of the normalized field values, used to state theorems. -/

def title_val (env : PyEnv) (record : PyDict) : PyVal :=
  let t := _get_first_available record title_fields .vNone
  if pyTruthy t then .vStr (clean_text env t) else t

def body_val (env : PyEnv) (record : PyDict) : PyVal :=
  let b := _get_first_available record body_fields .vNone
  if pyTruthy b then .vStr (clean_text env b) else b

def date_val (env : PyEnv) (record : PyDict) : PyVal :=
  match normalize_date env (_get_first_available record date_fields .vNone) with
  | some d => PyVal.vDT d
  | none => PyVal.vNone

def tags_val (record : PyDict) : PyVal :=
  match dictGet "tags" record with
  | some (.vList xs) => PyVal.vList xs
  | some (.vStr s) =>
    PyVal.vList (((splitOnComma s).map pyStrip).filter (fun t => !(t == "")))
  | _ => PyVal.vList []

/-- The normalized record written out as the literal nine-key dict. -/
theorem normalize_record_eq (env : PyEnv) (record : PyDict) (source : String) :
    normalize_record env record source =
      [("source", .vStr source),
       ("title", title_val env record),
       ("body", body_val env record),
       ("author", _get_first_available record author_fields .vNone),
       ("date", date_val env record),
       ("url", _get_first_available record url_fields .vNone),
       ("score", _get_first_available record score_fields (.vInt 0)),
       ("comments_count", _get_first_available record comments_fields (.vInt 0)),
       ("tags", tags_val record)] := by
  unfold normalize_record title_val body_val date_val tags_val
  by_cases ht : pyTruthy (_get_first_available record title_fields .vNone) <;>
    by_cases hb : pyTruthy (_get_first_available record body_fields .vNone) <;>
      simp [standard_fields, dictSet, dictGet, ht, hb]

/- ------------------------------------------------------------------
src/utils/data_utils.py : merge_dataframes
------------------------------------------------------------------ -/

/-- The date sort key of a row: the instant of its date value, none when
the date is null or missing. -/
def dateKeyOf (r : PyDict) : Option Int :=
  match dictGet "date" r with
  | some (.vDT d) => some d.instant
  | _ => none

/-- Descending-by-date comparison with null dates last, as a Bool. -/
def dateGeB (a b : PyDict) : Bool :=
  match dateKeyOf a, dateKeyOf b with
  | _, none => true
  | none, some _ => false
  | some x, some y => decide (y ≤ x)

/-- Descending-by-date ordering with null dates last. -/
def dateGe (a b : PyDict) : Prop := dateGeB a b = true

instance : DecidableRel dateGe :=
  fun a b => decidable_of_iff (dateGeB a b = true) Iff.rfl

instance : IsTotal PyDict dateGe where
  total := by
    intro a b
    unfold dateGe dateGeB
    cases dateKeyOf a <;> cases dateKeyOf b <;> simp
    exact Int.le_total _ _

instance : IsTrans PyDict dateGe where
  trans := by
    intro a b c
    unfold dateGe dateGeB
    cases dateKeyOf a <;> cases dateKeyOf b <;> cases dateKeyOf c <;> simp
    exact fun h1 h2 => le_trans h2 h1

/-- merge_dataframes: drop empty frames, return empty when none remain,
else concatenate and sort descending by date (nulls last) with a fresh
index (positional in the list model).  The pandas sort is modelled by
insertion sort; the theorems use only that the result is a sorted
permutation of the concatenation. -/
def merge_dataframes (dataframes : List PyFrame) : PyFrame :=
  if dataframes.isEmpty then []
  else
    let non_empty_dfs := dataframes.filter (fun df => !(df.isEmpty))
    if non_empty_dfs.isEmpty then []
    else List.insertionSort dateGe non_empty_dfs.flatten

/- ------------------------------------------------------------------
src/core/orchestrator.py : ScrapingOrchestrator
------------------------------------------------------------------ -/

/-- A scraper adapter, modelled by the outcome of its search call (raised
exception message or returned raw frame, possibly depending on the index of
the concurrent unit invoking it) and its validate_config() result. -/
structure Adapter where
  search : Nat → Except String PyFrame
  configured : Bool

/-- Values of the per-source metadata dicts. -/
inductive MVal where
  | mStr (s : String)
  | mNat (n : Nat)
  | mBool (b : Bool)
deriving DecidableEq

/-- A Source Outcome dict (wall-clock fields omitted). -/
abbrev SourceMeta := List (String × MVal)

/-- Values of the overall search metadata dict. -/
inductive MetaVal where
  | vStr (s : String)
  | vNat (n : Nat)
  | vStrList (l : List String)
  | vSrc (m : List (String × SourceMeta))
deriving DecidableEq

/-- The overall search metadata dict (wall-clock fields omitted). -/
abbrev Metadata := List (String × MetaVal)

/-- A progress callback: none means no callback was supplied; a supplied
callback maps the reported percentage to (some message) when it raises at
that checkpoint and to none when it returns normally. -/
abbrev Callback := Option (Nat → Option String)

/-- Invoke the optional callback at a percentage; the result is the raised
exception message, if any. -/
def cbCall (cb : Callback) (percent : Nat) : Option String :=
  match cb with
  | none => none
  | some f => f percent

/-- ScrapingOrchestrator._search_source_with_progress: the whole body runs
inside one try/except, so a raising callback or a raising adapter search
both produce an empty frame plus a failure Source Outcome; a successful
search yields the normalized frame plus a success Source Outcome. -/
def _search_source_with_progress (env : PyEnv) (scraper : Adapter)
    (source : String) (cb : Callback) (source_index total_sources : Nat) :
    PyFrame × SourceMeta :=
  match cbCall cb (source_index * 80 / total_sources) with
  | some e =>
    ([], [("success", .mBool false), ("error", .mStr e), ("count", .mNat 0),
          ("scraper_configured", .mBool scraper.configured)])
  | none =>
    match scraper.search source_index with
    | .error e =>
      ([], [("success", .mBool false), ("error", .mStr e), ("count", .mNat 0),
            ("scraper_configured", .mBool scraper.configured)])
    | .ok raw_df =>
      let normalized_df := normalize_dataframe env raw_df source
      (normalized_df,
       [("success", .mBool true), ("count", .mNat normalized_df.length),
        ("scraper_configured", .mBool scraper.configured)])

/-- Placeholder adapter behind the getD of a lookup that is known to
succeed; never reached. -/
def defaultAdapter : Adapter := ⟨fun _ => .ok [], false⟩

/-- The list of per-unit results of the fan-out: one concurrent unit per
entry of valid_sources, keyed by source name, each unit searching via the
adapter that the source name maps to. -/
def unit_results (env : PyEnv) (scrapers : List (String × Adapter))
    (cb : Callback) (valid_sources : List String) :
    List (String × (PyFrame × SourceMeta)) :=
  valid_sources.enum.map (fun p =>
    (p.2, _search_source_with_progress env ((dictGet p.2 scrapers).getD defaultAdapter)
            p.2 cb p.1 valid_sources.length))

/-- ScrapingOrchestrator.search_all_sources.  The Except layer carries an
exception escaping the call: the only sources of one are the unguarded
progress-callback invocations at 0, 90 and 100 percent (gather is called
with return_exceptions, and each per-source unit catches its own
exceptions, so the unit results never escape).  Sources absent from the
scraper mapping are dropped; if none remain the call returns the error
metadata dict.  Each remaining source becomes one concurrent unit; the
frames of all units (failed units contribute empty frames) are merged and
the Source Outcomes are accumulated into a dict keyed by source name. -/
def search_all_sources (env : PyEnv) (scrapers : List (String × Adapter))
    (query : String) (selected_sources : List String) (cb : Callback) :
    Except String (PyFrame × Metadata) :=
  match cbCall cb 0 with
  | some e => .error e
  | none =>
    let valid_sources := selected_sources.filter (fun s => (dictGet s scrapers).isSome)
    if valid_sources.isEmpty then
      .ok ([], [("error", .vStr "No valid sources selected")])
    else
      let results := unit_results env scrapers cb valid_sources
      let source_dataframes := results.map (fun r => r.2.1)
      let source_metadata := results.foldl (fun d r => dictSet d r.1 r.2.2) []
      match cbCall cb 90 with
      | some e => .error e
      | none =>
        let merged_df := merge_dataframes source_dataframes
        let overall_metadata : Metadata :=
          [("query", .vStr query),
           ("sources_searched", .vStrList valid_sources),
           ("total_results", .vNat merged_df.length),
           ("source_results", .vSrc source_metadata)]
        match cbCall cb 100 with
        | some e => .error e
        | none => .ok (merged_df, overall_metadata)

/-- ScrapingOrchestrator.search_single_source: an unknown source is a local
error returning an error dict; otherwise the single search runs with its
exceptions caught, as one fan-out unit plus the extra source/query keys. -/
def search_single_source (env : PyEnv) (scrapers : List (String × Adapter))
    (source query : String) : PyFrame × SourceMeta :=
  match dictGet source scrapers with
  | none => ([], [("error", .mStr ("Unknown source: " ++ source))])
  | some scraper =>
    match scraper.search 0 with
    | .ok raw_df =>
      let normalized_df := normalize_dataframe env raw_df source
      (normalized_df,
       [("success", .mBool true), ("source", .mStr source), ("query", .mStr query),
        ("count", .mNat normalized_df.length),
        ("scraper_configured", .mBool scraper.configured)])
    | .error e =>
      ([], [("success", .mBool false), ("error", .mStr e), ("source", .mStr source),
            ("count", .mNat 0), ("scraper_configured", .mBool scraper.configured)])

/- ------------------------------------------------------------------
src/core/orchestrator.py : filter_results
------------------------------------------------------------------ -/

/-- The source-membership mask of the source filter. -/
def source_pred (source_filter : List String) (r : PyDict) : Bool :=
  match dictGet "source" r with
  | some (.vStr s) => source_filter.contains s
  | _ => false

/-- The date-range mask: pandas comparisons against a null date are false,
so only rows with a date inside the inclusive range pass. -/
def date_pred (start_date end_date : Int) (r : PyDict) : Bool :=
  match dictGet "date" r with
  | some (.vDT d) => decide (start_date ≤ d.instant) && decide (d.instant ≤ end_date)
  | _ => false

/-- The minimum-score mask (false on null or non-numeric scores). -/
def score_pred (min_score : Int) (r : PyDict) : Bool :=
  match dictGet "score" r with
  | some (.vInt n) => decide (min_score ≤ n)
  | _ => false

/-- Case-insensitive containment of the lowered keyword in a string field,
with non-string values giving false (the na=False of the pandas mask). -/
def strFieldContains (v : Option PyVal) (kw : String) : Bool :=
  match v with
  | some (.vStr t) => strContains (pyLower t) kw
  | _ => false

/-- The keyword mask: lowered keyword contained in title or in body. -/
def keyword_pred (kw : String) (r : PyDict) : Bool :=
  strFieldContains (dictGet "title" r) (pyLower kw) ||
    strFieldContains (dictGet "body" r) (pyLower kw)

/-- ScrapingOrchestrator.filter_results: an empty frame is returned as is;
otherwise each supplied filter is applied in turn (a None or empty source
list and a None or empty keyword are no-ops, matching Python truthiness
tests), and the index is reset (positional in the list model). -/
def filter_results (df : PyFrame) (source_filter : Option (List String))
    (date_range : Option (Int × Int)) (min_score : Option Int)
    (keyword_filter : Option String) : PyFrame :=
  if df.isEmpty then df
  else
    let filtered := match source_filter with
      | some l => if l.isEmpty then df else df.filter (source_pred l)
      | none => df
    let filtered := match date_range with
      | some p => filtered.filter (date_pred p.1 p.2)
      | none => filtered
    let filtered := match min_score with
      | some m => filtered.filter (score_pred m)
      | none => filtered
    let filtered := match keyword_filter with
      | some k => if k == "" then filtered else filtered.filter (keyword_pred k)
      | none => filtered
    filtered

/- ------------------------------------------------------------------
src/core/orchestrator.py : get_search_suggestions
------------------------------------------------------------------ -/

def construction_indicators : List String :=
  ["roof", "construction", "building", "contractor", "repair", "install",
   "material", "Latvia", "Riga"]

def construction_terms : List String :=
  ["Latvia", "Riga", "contractor", "installation", "repair", "materials", "cost"]

/-- The quoted suggestions: quoted long words and quoted adjacent bigrams,
produced only for queries of more than one lowered word. -/
def quoted_suggestions (query_words : List String) : List String :=
  if query_words.length > 1 then
    (query_words.filter (fun w => w.length > 3)).map (fun w => "\"" ++ w ++ "\"")
      ++ (query_words.zip query_words.tail).map
          (fun p => "\"" ++ p.1 ++ " " ++ p.2 ++ "\"")
  else []

/-- The suggestion list before the final truncation: the quoted
suggestions, then, only when some lowered word is in the indicator set,
one query-plus-term variant for each construction term not already
contained (case insensitively) in the query. -/
def suggestions_before_limit (query : String) : List String :=
  let query_words := wsSplit (pyLower query)
  let suggestions := quoted_suggestions query_words
  if query_words.any (fun w => construction_indicators.contains w) then
    suggestions ++
      (construction_terms.filter
        (fun term => !(strContains (pyLower query) (pyLower term)))).map
        (fun term => query ++ " " ++ term)
  else suggestions

/-- ScrapingOrchestrator.get_search_suggestions: the candidate list cut to
its first 10 entries. -/
def get_search_suggestions (query : String) : List String :=
  (suggestions_before_limit query).take 10

/- ------------------------------------------------------------------
Helper lemmas
------------------------------------------------------------------ -/

theorem flatten_filter_nonempty (l : List PyFrame) :
    (l.filter (fun df => !(df.isEmpty))).flatten = l.flatten := by
  induction l with
  | nil => rfl
  | cons x t ih =>
    by_cases hx : x.isEmpty
    · have hx0 : x = [] := List.isEmpty_iff.mp hx
      subst hx0
      simpa using ih
    · simp [List.filter_cons, hx, ih]

theorem merge_dataframes_perm (dfs : List PyFrame) :
    (merge_dataframes dfs).Perm dfs.flatten := by
  by_cases h0 : dfs.isEmpty
  · have h0e : dfs = [] := List.isEmpty_iff.mp h0
    subst h0e
    simp [merge_dataframes]
  · unfold merge_dataframes
    rw [if_neg h0]
    by_cases h1 : (dfs.filter (fun df => !(df.isEmpty))).isEmpty
    · rw [if_pos h1]
      have hfe := List.filter_eq_nil_iff.mp (List.isEmpty_iff.mp h1)
      have : dfs.flatten = [] := by
        rw [List.flatten_eq_nil_iff]
        intro x hx
        simpa using hfe x hx
      rw [this]
    · rw [if_neg h1]
      exact (List.perm_insertionSort dateGe _).trans
        (by rw [flatten_filter_nonempty])

theorem merge_dataframes_sorted (dfs : List PyFrame) :
    List.Sorted dateGe (merge_dataframes dfs) := by
  unfold merge_dataframes
  by_cases h0 : dfs.isEmpty
  · rw [if_pos h0]; exact List.sorted_nil
  · rw [if_neg h0]
    by_cases h1 : (dfs.filter (fun df => !(df.isEmpty))).isEmpty
    · rw [if_pos h1]; exact List.sorted_nil
    · rw [if_neg h1]
      exact List.sorted_insertionSort dateGe _

theorem dictGet_set_self (d : List (String × α)) (k : String) (v : α) :
    dictGet k (dictSet d k v) = some v := by
  induction d with
  | nil => simp [dictGet, dictSet]
  | cons p rest ih =>
    by_cases hp : p.1 = k
    · simp [dictSet, hp, dictGet]
    · simp [dictSet, hp, dictGet, ih]

theorem dictGet_set_ne (d : List (String × α)) (k k' : String) (v : α)
    (h : k' ≠ k) : dictGet k (dictSet d k' v) = dictGet k d := by
  induction d with
  | nil => simp [dictGet, dictSet, h]
  | cons p rest ih =>
    by_cases hp : p.1 = k'
    · have hpk : p.1 ≠ k := by rw [hp]; exact h
      simp [dictSet, hp, dictGet, h, hpk]
    · by_cases hk : p.1 = k <;> simp [dictSet, hp, dictGet, hk, ih, Ne.symm h]

def dictKeys (d : List (String × α)) : List String := d.map Prod.fst

theorem dictKeys_set (d : List (String × α)) (k : String) (v : α) :
    dictKeys (dictSet d k v) =
      if k ∈ dictKeys d then dictKeys d else dictKeys d ++ [k] := by
  simp only [dictKeys]
  induction d with
  | nil => simp [dictSet]
  | cons p rest ih =>
    by_cases hp : p.1 = k
    · simp [dictSet, hp]
    · have hkp : ¬ (k = p.1) := fun he => hp he.symm
      by_cases hk : k ∈ rest.map Prod.fst
      · simp [dictSet, hp, hk, hkp, ih]
      · simp [dictSet, hp, hk, hkp, ih]

theorem dictKeys_set_nodup (d : List (String × α)) (k : String) (v : α)
    (h : (dictKeys d).Nodup) : (dictKeys (dictSet d k v)).Nodup := by
  rw [dictKeys_set]
  by_cases hk : k ∈ dictKeys d
  · simpa [hk] using h
  · simp only [hk, if_false]
    simpa [List.nodup_append, hk] using h

theorem dictGet_not_mem_keys (d : List (String × α)) (k : String)
    (h : k ∉ dictKeys d) : dictGet k d = none := by
  induction d with
  | nil => rfl
  | cons p rest ih =>
    have h1 : p.1 ≠ k := by
      intro he
      exact h (by simp only [dictKeys, List.map_cons, he]; exact List.mem_cons_self k _)
    have h2 : k ∉ dictKeys rest := by
      intro hm
      apply h
      simp only [dictKeys, List.map_cons]
      exact List.mem_cons_of_mem _ (by simpa [dictKeys] using hm)
    simp [dictGet, h1, ih h2]

theorem dict_countP_eq_one (d : List (String × α)) (a : String) (v : α)
    (hn : (dictKeys d).Nodup) (hg : dictGet a d = some v) :
    d.countP (fun p => p.1 == a) = 1 := by
  induction d with
  | nil => simp [dictGet] at hg
  | cons p rest ih =>
    have hn' : p.1 ∉ dictKeys rest ∧ (dictKeys rest).Nodup := by
      have hc : (p.1 :: dictKeys rest).Nodup := by
        simpa [dictKeys] using hn
      exact ⟨(List.nodup_cons.mp hc).1, (List.nodup_cons.mp hc).2⟩
    by_cases hp : p.1 = a
    · have hrest : a ∉ dictKeys rest := by rw [← hp]; exact hn'.1
      have hz : rest.countP (fun p => p.1 == a) = 0 := by
        rw [List.countP_eq_zero]
        intro q hq
        simp only [beq_iff_eq]
        intro he
        exact hrest (by rw [← he]; exact List.mem_map.mpr ⟨q, hq, rfl⟩)
      simp [List.countP_cons, hp, hz]
    · have hg2 : dictGet a rest = some v := by
        simpa [dictGet, hp] using hg
      simp [List.countP_cons, hp, ih hn'.2 hg2]

theorem dictGet_foldl_set_not_mem {γ : Type _} (l : List (String × (γ × β)))
    (d : List (String × β)) (a : String) (h : ∀ p ∈ l, p.1 ≠ a) :
    dictGet a (l.foldl (fun d r => dictSet d r.1 r.2.2) d) = dictGet a d := by
  induction l generalizing d with
  | nil => rfl
  | cons p rest ih =>
    have hp : p.1 ≠ a := h p (by simp)
    rw [List.foldl_cons, ih _ (fun q hq => h q (by simp [hq]))]
    exact dictGet_set_ne d a p.1 p.2.2 hp

theorem dictKeys_foldl_set_nodup {γ : Type _} (l : List (String × (γ × β)))
    (d : List (String × β)) (h : (dictKeys d).Nodup) :
    (dictKeys (l.foldl (fun d r => dictSet d r.1 r.2.2) d)).Nodup := by
  induction l generalizing d with
  | nil => exact h
  | cons p rest ih =>
    rw [List.foldl_cons]
    exact ih _ (dictKeys_set_nodup d p.1 p.2.2 h)

theorem snd_mem_of_mem_enumFrom {α : Type _} {p : Nat × α} {l : List α} {n : Nat}
    (h : p ∈ List.enumFrom n l) : p.2 ∈ l := by
  induction l generalizing n with
  | nil => simp [List.enumFrom] at h
  | cons x t ih =>
    have h' : p = (n, x) ∨ p ∈ List.enumFrom (n + 1) t := by
      simpa [List.enumFrom] using h
    rcases h' with h' | h'
    · simp [h']
    · exact List.mem_cons_of_mem x (ih h')

theorem countP_enumFrom_snd {α : Type _} [BEq α] (l : List α) (a : α) (n : Nat) :
    (List.enumFrom n l).countP (fun p => p.2 == a) = l.count a := by
  induction l generalizing n with
  | nil => rfl
  | cons x t ih =>
    simp only [List.enumFrom, List.countP_cons, List.count_cons, ih]

theorem filter_chain {α : Type _} (l : List α) (p q : α → Bool) :
    (l.filter p).filter q = l.filter (fun a => p a && q a) := by
  induction l with
  | nil => rfl
  | cons x t ih => by_cases hp : p x <;> by_cases hq : q x <;> simp [hp, hq, ih]

/-- Evaluation of a search_all_sources run without a callback, when every
selected source is valid and at least one source is selected. -/
theorem search_all_sources_run (env : PyEnv) (scrapers : List (String × Adapter))
    (query : String) (selected : List String)
    (hval : selected.filter (fun s => (dictGet s scrapers).isSome) = selected)
    (hne : selected ≠ []) :
    search_all_sources env scrapers query selected none =
      .ok (merge_dataframes ((unit_results env scrapers none selected).map (fun r => r.2.1)),
        [("query", .vStr query),
         ("sources_searched", .vStrList selected),
         ("total_results", .vNat (merge_dataframes
           ((unit_results env scrapers none selected).map (fun r => r.2.1))).length),
         ("source_results", .vSrc ((unit_results env scrapers none selected).foldl
           (fun d r => dictSet d r.1 r.2.2) []))]) := by
  have hie : selected.isEmpty = false := by
    cases selected with
    | nil => exact absurd rfl hne
    | cons x t => rfl
  unfold search_all_sources
  simp only [cbCall, hval, hie, Bool.false_eq_true, if_false]

/-- All candidate fields missing or None yields the default. -/
theorem get_first_available_default (record : PyDict) (fields : List String)
    (d : PyVal)
    (h : ∀ f ∈ fields, dictGet f record = none ∨ dictGet f record = some .vNone) :
    _get_first_available record fields d = d := by
  induction fields with
  | nil => rfl
  | cons f rest ih =>
    rcases h f (by simp) with h1 | h1 <;>
      simp [_get_first_available, h1, ih (fun g hg => h g (by simp [hg]))]

/-- Characterization of the date-range mask. -/
theorem date_pred_true_iff (start_date end_date : Int) (r : PyDict) :
    date_pred start_date end_date r = true ↔
      ∃ d, dictGet "date" r = some (.vDT d) ∧
        start_date ≤ d.instant ∧ d.instant ≤ end_date := by
  unfold date_pred
  cases hg : dictGet "date" r with
  | none => simp
  | some v =>
    cases v with
    | vDT d => simp
    | vNone => simp
    | vStr s => simp
    | vInt n => simp
    | vList xs => simp

/- ------------------------------------------------------------------
Claim theorems
------------------------------------------------------------------ -/

/-- C2: the source field of every normalized record equals the source
argument, regardless of the raw input and of any source key it holds. -/
theorem claim_C2 (env : PyEnv) (record : PyDict) (source : String) :
    dictGet "source" (normalize_record env record source) = some (.vStr source) := by
  rw [normalize_record_eq]
  rfl

/-- C3: every normalized record carries all nine canonical keys; each of
title, body, author, url, score and comments_count is resolved first-match
over its priority-ordered candidate list (title and body pass the selected
value through text cleaning when truthy), and when every candidate is
missing or null the text fields come out null and score and comments_count
come out 0, the keys still being present. -/
theorem claim_C3 (env : PyEnv) (record : PyDict) (source : String) :
    (∀ f ∈ standard_fields,
      (dictGet f (normalize_record env record source)).isSome) ∧
    dictGet "title" (normalize_record env record source) = some (title_val env record) ∧
    dictGet "body" (normalize_record env record source) = some (body_val env record) ∧
    dictGet "author" (normalize_record env record source) =
      some (_get_first_available record author_fields .vNone) ∧
    dictGet "url" (normalize_record env record source) =
      some (_get_first_available record url_fields .vNone) ∧
    dictGet "score" (normalize_record env record source) =
      some (_get_first_available record score_fields (.vInt 0)) ∧
    dictGet "comments_count" (normalize_record env record source) =
      some (_get_first_available record comments_fields (.vInt 0)) ∧
    ((∀ f ∈ title_fields, dictGet f record = none ∨ dictGet f record = some .vNone) →
      dictGet "title" (normalize_record env record source) = some .vNone) ∧
    ((∀ f ∈ body_fields, dictGet f record = none ∨ dictGet f record = some .vNone) →
      dictGet "body" (normalize_record env record source) = some .vNone) ∧
    ((∀ f ∈ author_fields, dictGet f record = none ∨ dictGet f record = some .vNone) →
      dictGet "author" (normalize_record env record source) = some .vNone) ∧
    ((∀ f ∈ url_fields, dictGet f record = none ∨ dictGet f record = some .vNone) →
      dictGet "url" (normalize_record env record source) = some .vNone) ∧
    ((∀ f ∈ score_fields, dictGet f record = none ∨ dictGet f record = some .vNone) →
      dictGet "score" (normalize_record env record source) = some (.vInt 0)) ∧
    ((∀ f ∈ comments_fields, dictGet f record = none ∨ dictGet f record = some .vNone) →
      dictGet "comments_count" (normalize_record env record source) = some (.vInt 0)) := by
  rw [normalize_record_eq]
  refine ⟨?_, rfl, rfl, rfl, rfl, rfl, rfl, ?_, ?_, ?_, ?_, ?_, ?_⟩
  · intro f hf
    simp only [standard_fields] at hf
    fin_cases hf <;> rfl
  · intro h
    have hd := get_first_available_default record title_fields .vNone h
    simp [dictGet, title_val, hd, pyTruthy]
  · intro h
    have hd := get_first_available_default record body_fields .vNone h
    simp [dictGet, body_val, hd, pyTruthy]
  · intro h
    have hd := get_first_available_default record author_fields .vNone h
    simp [dictGet, hd]
  · intro h
    have hd := get_first_available_default record url_fields .vNone h
    simp [dictGet, hd]
  · intro h
    have hd := get_first_available_default record score_fields (.vInt 0) h
    simp [dictGet, hd]
  · intro h
    have hd := get_first_available_default record comments_fields (.vInt 0) h
    simp [dictGet, hd]

/-- C3 witness: the empty raw record yields a null title, score 0, and a
present tags key. -/
theorem claim_C3_witness :
    dictGet "title" (normalize_record envId [] "src") = some .vNone ∧
    dictGet "score" (normalize_record envId [] "src") = some (.vInt 0) ∧
    (dictGet "tags" (normalize_record envId [] "src")).isSome := by
  obtain ⟨hpres, _, _, _, _, _, _, hTd, _, _, _, hSd, _⟩ := claim_C3 envId [] "src"
  exact ⟨hTd (by decide), hSd (by decide), hpres "tags" (by decide)⟩

/-- C4: merging no tables or only empty tables yields the empty table; in
general the merge is a permutation of the concatenation of all input rows
(content preserved; 3 rows plus 2 rows give 5), sorted descending by date
with null dates last (the fresh 0-based index is positional in the list
model). -/
theorem claim_C4 :
    merge_dataframes ([] : List PyFrame) = [] ∧
    (∀ dfs : List PyFrame, (∀ df ∈ dfs, df = []) → merge_dataframes dfs = []) ∧
    (∀ dfs : List PyFrame,
      (merge_dataframes dfs).Perm dfs.flatten ∧
      List.Sorted dateGe (merge_dataframes dfs)) := by
  refine ⟨rfl, ?_, fun dfs => ⟨merge_dataframes_perm dfs, merge_dataframes_sorted dfs⟩⟩
  intro dfs h
  unfold merge_dataframes
  by_cases h0 : dfs.isEmpty
  · rw [if_pos h0]
  · rw [if_neg h0]
    have h1 : (dfs.filter (fun df => !(df.isEmpty))).isEmpty = true := by
      rw [List.isEmpty_iff, List.filter_eq_nil_iff]
      intro df hdf
      simp [h df hdf]
    rw [if_pos h1]

/-- C4 witness: merging two empty tables gives no rows, and merging a
3-row table with a 2-row table gives 5 rows. -/
theorem claim_C4_witness :
    merge_dataframes [[], []] = [] ∧
    (merge_dataframes
      [[[("title", PyVal.vStr "a")], [("title", PyVal.vStr "b")],
        [("title", PyVal.vStr "c")]],
       [[("title", PyVal.vStr "d")], [("title", PyVal.vStr "e")]]]).length = 5 := by
  constructor
  · exact claim_C4.2.1 [[], []] (by decide)
  · have hp := (claim_C4.2.2
      [[[("title", PyVal.vStr "a")], [("title", PyVal.vStr "b")],
        [("title", PyVal.vStr "c")]],
       [[("title", PyVal.vStr "d")], [("title", PyVal.vStr "e")]]]).1
    rw [hp.length_eq]
    rfl

/-- C6 (amended): a timestamp carrying no timezone is returned marked as
UTC with its clock fields unchanged; a timestamp carrying a timezone is
returned unchanged, keeping its original timezone (hence denoting the same
instant but not rewritten to UTC); a parse result of a string input gets
the same treatment. -/
theorem claim_C6_amended (env : PyEnv) :
    (∀ d : DTime, d.tz = none → normalize_date env (.vDT d) = some ⟨d.clock, some 0⟩) ∧
    (∀ d : DTime, d.tz ≠ none →
      normalize_date env (.vDT d) = some d ∧
      (normalize_date env (.vDT d)).map DTime.instant = some d.instant) ∧
    (∀ s d, env.parseDate s = some d →
      normalize_date env (.vStr s) =
        some (if d.tz = none then ⟨d.clock, some 0⟩ else d)) := by
  refine ⟨?_, ?_, ?_⟩
  · intro d hd
    simp [normalize_date, hd]
  · intro d hd
    simp [normalize_date, hd]
  · intro s d hd
    simp [normalize_date, hd]

/-- C6 counterexample: an aware datetime (offset +120 minutes) comes back
with its original timezone, not converted to UTC. -/
theorem claim_C6_counterexample :
    normalize_date envId (.vDT ⟨0, some 120⟩) = some ⟨0, some 120⟩ ∧
    (normalize_date envId (.vDT ⟨0, some 120⟩)).map DTime.tz ≠ some (some 0) := by
  decide

/-- A parse environment whose string parse yields a naive datetime. -/
def envP : PyEnv := ⟨id, fun _ => some ⟨7, none⟩⟩

/-- C6 witness: concrete naive, aware and parsed-string inputs. -/
theorem claim_C6_witness :
    normalize_date envP (.vDT ⟨5, none⟩) = some ⟨5, some 0⟩ ∧
    normalize_date envP (.vDT ⟨5, some 60⟩) = some ⟨5, some 60⟩ ∧
    normalize_date envP (.vStr "June 2024") = some ⟨7, some 0⟩ := by
  obtain ⟨h1, h2, h3⟩ := claim_C6_amended envP
  refine ⟨h1 ⟨5, none⟩ rfl, (h2 ⟨5, some 60⟩ (by decide)).1, ?_⟩
  have h4 := h3 "June 2024" ⟨7, none⟩ rfl
  simpa using h4

/-- C5: a selection containing no valid source returns the empty frame
plus the error dict, and a single-source search on an unknown source
returns the empty frame plus error metadata; both return normally. -/
theorem claim_C5 (env : PyEnv) (scrapers : List (String × Adapter)) (query : String) :
    (∀ selected : List String, (∀ s ∈ selected, dictGet s scrapers = none) →
      search_all_sources env scrapers query selected none =
        .ok ([], [("error", .vStr "No valid sources selected")])) ∧
    (∀ source, dictGet source scrapers = none →
      search_single_source env scrapers source query =
        ([], [("error", .mStr ("Unknown source: " ++ source))])) := by
  constructor
  · intro selected h
    have hval : selected.filter (fun s => (dictGet s scrapers).isSome) = [] := by
      rw [List.filter_eq_nil_iff]
      intro s hs
      simp [h s hs]
    unfold search_all_sources
    simp [cbCall, hval]
  · intro source h
    unfold search_single_source
    rw [h]

/-- C5 witness: an empty scraper mapping makes every selection invalid and
every single source unknown. -/
theorem claim_C5_witness :
    search_all_sources envId [] "roof" ["reddit"] none =
      .ok ([], [("error", .vStr "No valid sources selected")]) ∧
    search_single_source envId [] "reddit" "roof" =
      ([], [("error", .mStr "Unknown source: reddit")]) := by
  obtain ⟨h1, h2⟩ := claim_C5 envId [] "roof"
  exact ⟨h1 ["reddit"] (fun s _ => rfl), h2 "reddit" rfl⟩

/- Effective per-stage predicates of filter_results, accounting for the
Python truthiness of each optional argument. -/

def eff_source_pred (source_filter : Option (List String)) (r : PyDict) : Bool :=
  match source_filter with
  | some l => if l.isEmpty then true else source_pred l r
  | none => true

def eff_score_pred (min_score : Option Int) (r : PyDict) : Bool :=
  match min_score with
  | some m => score_pred m r
  | none => true

def eff_keyword_pred (keyword_filter : Option String) (r : PyDict) : Bool :=
  match keyword_filter with
  | some k => if k == "" then true else keyword_pred k r
  | none => true

/-- C7: with a date range supplied, filter_results keeps exactly the rows
passing the conjunction (logical AND) of all supplied filters, where the
date mask requires a non-null date inside the inclusive range; in
particular every surviving row has a non-null date between the endpoints.
The fresh sequential index is positional in the list model. -/
theorem claim_C7 (df : PyFrame) (source_filter : Option (List String))
    (min_score : Option Int) (keyword_filter : Option String)
    (start_date end_date : Int) :
    filter_results df source_filter (some (start_date, end_date)) min_score
        keyword_filter =
      df.filter (fun r => eff_source_pred source_filter r &&
        date_pred start_date end_date r && eff_score_pred min_score r &&
        eff_keyword_pred keyword_filter r) ∧
    ∀ r ∈ filter_results df source_filter (some (start_date, end_date)) min_score
        keyword_filter,
      ∃ d, dictGet "date" r = some (.vDT d) ∧
        start_date ≤ d.instant ∧ d.instant ≤ end_date := by
  have hmain : filter_results df source_filter (some (start_date, end_date)) min_score
        keyword_filter =
      df.filter (fun r => eff_source_pred source_filter r &&
        date_pred start_date end_date r && eff_score_pred min_score r &&
        eff_keyword_pred keyword_filter r) := by
    by_cases hdf : df.isEmpty
    · have hdfe : df = [] := List.isEmpty_iff.mp hdf
      subst hdfe
      simp [filter_results]
    · unfold filter_results
      rw [if_neg hdf]
      rcases source_filter with _ | l <;> rcases min_score with _ | m <;>
        rcases keyword_filter with _ | k <;>
        simp only [eff_source_pred, eff_score_pred, eff_keyword_pred] <;>
        (try split_ifs) <;>
        simp_all [filter_chain, List.filter_true, Bool.and_comm,
          Bool.and_left_comm, Bool.and_assoc]
  refine ⟨hmain, ?_⟩
  intro r hr
  rw [hmain] at hr
  have h2 := List.of_mem_filter hr
  simp only [Bool.and_eq_true] at h2
  exact (date_pred_true_iff start_date end_date r).mp h2.1.1.2

/-- C7 witness: a concrete two-row frame where only the dated row inside
the range survives. -/
theorem claim_C7_witness :
    filter_results
      [[("source", PyVal.vStr "reddit"), ("date", PyVal.vDT ⟨5, some 0⟩),
        ("score", PyVal.vInt 3), ("title", PyVal.vStr "Roof")],
       [("source", PyVal.vStr "news"), ("date", PyVal.vNone),
        ("score", PyVal.vInt 9), ("title", PyVal.vStr "Other")]]
      none (some (0, 10)) none none =
      [[("source", PyVal.vStr "reddit"), ("date", PyVal.vDT ⟨5, some 0⟩),
        ("score", PyVal.vInt 3), ("title", PyVal.vStr "Roof")]] ∧
    ∃ d, dictGet "date"
        [("source", PyVal.vStr "reddit"), ("date", PyVal.vDT ⟨5, some 0⟩),
         ("score", PyVal.vInt 3), ("title", PyVal.vStr "Roof")] =
        some (.vDT d) ∧ 0 ≤ d.instant ∧ d.instant ≤ 10 := by
  obtain ⟨h1, h2⟩ := claim_C7
    [[("source", PyVal.vStr "reddit"), ("date", PyVal.vDT ⟨5, some 0⟩),
      ("score", PyVal.vInt 3), ("title", PyVal.vStr "Roof")],
     [("source", PyVal.vStr "news"), ("date", PyVal.vNone),
      ("score", PyVal.vInt 9), ("title", PyVal.vStr "Other")]]
    none none none 0 10
  constructor
  · rw [h1]
    rfl
  · exact h2 _ (by decide)

/-- C8 counterexample: a single-token query proposes nothing at all, in
particular not its own quoted long token. -/
theorem claim_C8_counterexample :
    get_search_suggestions "roofing" = [] ∧
    ¬ ("\"roofing\"" ∈ get_search_suggestions "roofing") := by
  decide

/-- Every quoted suggestion ends in a quote character. -/
theorem concat_quote_getLast (y : String) :
    (y ++ "\"").toList.getLast? = some '\"' := by
  rw [show (y ++ "\"").toList = y.data ++ ['\"'] from String.data_append y "\""]
  exact List.getLast?_concat _

theorem quoted_getLast (ws : List String) (s : String)
    (hs : s ∈ quoted_suggestions ws) : s.toList.getLast? = some '\"' := by
  unfold quoted_suggestions at hs
  by_cases hl : ws.length > 1
  · rw [if_pos hl] at hs
    rcases List.mem_append.mp hs with h | h <;>
      rcases List.mem_map.mp h with ⟨x, _, rfl⟩
    · exact concat_quote_getLast _
    · exact concat_quote_getLast _
  · rw [if_neg hl] at hs
    simp at hs

/-- Every fixed construction term ends in a character other than a quote. -/
theorem term_getLast : ∀ term ∈ construction_terms,
    (term.data.getLast?).isSome = true ∧ term.data.getLast? ≠ some '\"' := by
  decide

/-- C8 (amended): get_search_suggestions is deterministic and returns at
most 10 items, drawn from a candidate pool; when the query has more than
one lowered token the pool contains each quoted token longer than 3
characters and each quoted adjacent bigram; a query-plus-term variant is
appended for each domain term not case-insensitively contained in the
query exactly when the lowered tokens meet the fixed indicator
vocabulary — when they do not, the pool is exactly the quoted-suggestion
list and holds no query-plus-term variant, and a single-token query with
no vocabulary hit yields no suggestions. -/
theorem claim_C8_amended (query : String) :
    (get_search_suggestions query).length ≤ 10 ∧
    (1 < (wsSplit (pyLower query)).length →
      (∀ w ∈ wsSplit (pyLower query), 3 < w.length →
        ("\"" ++ w ++ "\"") ∈ suggestions_before_limit query) ∧
      (∀ p ∈ (wsSplit (pyLower query)).zip (wsSplit (pyLower query)).tail,
        ("\"" ++ p.1 ++ " " ++ p.2 ++ "\"") ∈ suggestions_before_limit query)) ∧
    ((wsSplit (pyLower query)).any (fun w => construction_indicators.contains w) = true →
      ∀ term ∈ construction_terms,
        strContains (pyLower query) (pyLower term) = false →
        (query ++ " " ++ term) ∈ suggestions_before_limit query) ∧
    ((wsSplit (pyLower query)).any (fun w => construction_indicators.contains w) = false →
      suggestions_before_limit query = quoted_suggestions (wsSplit (pyLower query)) ∧
      ∀ term ∈ construction_terms,
        ¬ ((query ++ " " ++ term) ∈ suggestions_before_limit query)) ∧
    ((wsSplit (pyLower query)).any (fun w => construction_indicators.contains w) = false →
      (wsSplit (pyLower query)).length ≤ 1 →
      suggestions_before_limit query = []) := by
  have hpool : ∀ s, s ∈ quoted_suggestions (wsSplit (pyLower query)) →
      s ∈ suggestions_before_limit query := by
    intro s hs
    unfold suggestions_before_limit
    by_cases hind : (wsSplit (pyLower query)).any
        (fun w => construction_indicators.contains w)
    · simp only [hind, if_true]
      exact List.mem_append_left _ hs
    · simp only [Bool.not_eq_true] at hind
      simp only [hind, Bool.false_eq_true, if_false]
      exact hs
  have hnone : (wsSplit (pyLower query)).any
        (fun w => construction_indicators.contains w) = false →
      suggestions_before_limit query = quoted_suggestions (wsSplit (pyLower query)) := by
    intro hind
    unfold suggestions_before_limit
    simp only [hind, Bool.false_eq_true, if_false]
  refine ⟨List.length_take_le 10 _, ?_, ?_, ?_, ?_⟩
  · intro hlen
    constructor
    · intro w hw hwl
      refine hpool _ ?_
      unfold quoted_suggestions
      simp only [gt_iff_lt, hlen, if_pos]
      refine List.mem_append_left _ ?_
      exact List.mem_map.mpr ⟨w, List.mem_filter.mpr ⟨hw, by simpa using hwl⟩, rfl⟩
    · intro p hp
      refine hpool _ ?_
      unfold quoted_suggestions
      simp only [gt_iff_lt, hlen, if_pos]
      refine List.mem_append_right _ ?_
      exact List.mem_map.mpr ⟨p, hp, rfl⟩
  · intro hind term hterm hnotc
    unfold suggestions_before_limit
    simp only [hind, if_true]
    refine List.mem_append_right _ ?_
    exact List.mem_map.mpr ⟨term, List.mem_filter.mpr ⟨hterm, by simp [hnotc]⟩, rfl⟩
  · intro hind
    refine ⟨hnone hind, ?_⟩
    intro term hterm hmem
    rw [hnone hind] at hmem
    have hlast := quoted_getLast (wsSplit (pyLower query)) _ hmem
    rw [show (query ++ " " ++ term).toList = (query ++ " ").data ++ term.data from
      String.data_append (query ++ " ") term, List.getLast?_append] at hlast
    obtain ⟨hsome, hne⟩ := term_getLast term hterm
    rcases ho : term.data.getLast? with _ | c
    · rw [ho] at hsome
      exact absurd hsome (by simp)
    · rw [ho] at hlast
      exact hne (ho.trans hlast)
  · intro hind hlen
    rw [hnone hind]
    unfold quoted_suggestions
    have hlen2 : ¬ (wsSplit (pyLower query)).length > 1 := by omega
    simp [hlen2]

/-- C8 witness: the documented example query, plus a multi-token query
with no vocabulary hit, which gets no query-plus-term variants. -/
theorem claim_C8_witness :
    (get_search_suggestions "flat roof repair").length ≤ 10 ∧
    "\"flat roof\"" ∈ suggestions_before_limit "flat roof repair" ∧
    "\"roof\"" ∈ suggestions_before_limit "flat roof repair" ∧
    "flat roof repair Latvia" ∈ suggestions_before_limit "flat roof repair" ∧
    suggestions_before_limit "hello world" =
      quoted_suggestions (wsSplit (pyLower "hello world")) ∧
    ¬ ("hello world Latvia" ∈ suggestions_before_limit "hello world") := by
  obtain ⟨h1, h2, h3, _, _⟩ := claim_C8_amended "flat roof repair"
  obtain ⟨_, _, _, h4, _⟩ := claim_C8_amended "hello world"
  have hlen : 1 < (wsSplit (pyLower "flat roof repair")).length := by decide
  obtain ⟨hw, hbg⟩ := h2 hlen
  obtain ⟨hq, hnv⟩ := h4 (by decide)
  exact ⟨h1, hbg ("flat", "roof") (by decide), hw "roof" (by decide) (by decide),
    h3 (by decide) "Latvia" (by decide) (by decide), hq, hnv "Latvia" (by decide)⟩

/-- C1: with two valid selected sources, an adapter that raises and an
adapter that returns rows, search_all_sources returns normally; the merged
frame holds exactly the successful normalized rows, and the Source
Outcomes record the failure (success false, the error message, count 0)
and the success (success true, the row count). -/
theorem claim_C1 (env : PyEnv) (scrapers : List (String × Adapter))
    (query a b e : String) (A B : Adapter) (rows : PyFrame)
    (hA : dictGet a scrapers = some A) (hB : dictGet b scrapers = some B)
    (hab : a ≠ b) (hAe : A.search 0 = Except.error e)
    (hBok : B.search 1 = Except.ok rows) :
    ∃ merged meta,
      search_all_sources env scrapers query [a, b] none = .ok (merged, meta) ∧
      merged.Perm (rows.map (fun r => normalize_record env r b)) ∧
      ∃ sm, dictGet "source_results" meta = some (.vSrc sm) ∧
        dictGet a sm = some [("success", .mBool false), ("error", .mStr e),
          ("count", .mNat 0), ("scraper_configured", .mBool A.configured)] ∧
        dictGet b sm = some [("success", .mBool true),
          ("count", .mNat rows.length),
          ("scraper_configured", .mBool B.configured)] := by
  have hval : ([a, b]).filter (fun s => (dictGet s scrapers).isSome) = [a, b] := by
    simp [hA, hB]
  have hrun := search_all_sources_run env scrapers query [a, b] hval (by simp)
  have hunits : unit_results env scrapers none [a, b] =
      [(a, ([], [("success", .mBool false), ("error", .mStr e), ("count", .mNat 0),
                 ("scraper_configured", .mBool A.configured)])),
       (b, (rows.map (fun r => normalize_record env r b),
            [("success", .mBool true),
             ("count", .mNat (rows.map (fun r => normalize_record env r b)).length),
             ("scraper_configured", .mBool B.configured)]))] := by
    simp [unit_results, List.enum, List.enumFrom, _search_source_with_progress,
      cbCall, hA, hB, hAe, hBok, normalize_dataframe]
  refine ⟨_, _, hrun, ?_, ?_⟩
  · rw [hunits]
    simpa using merge_dataframes_perm [[], rows.map (fun r => normalize_record env r b)]
  · refine ⟨(unit_results env scrapers none [a, b]).foldl
      (fun d r => dictSet d r.1 r.2.2) [], ?_, ?_, ?_⟩
    · rfl
    · rw [hunits]
      simp [dictSet, dictGet, hab]
    · rw [hunits]
      simp [dictSet, dictGet, hab, Ne.symm hab, List.length_map]

/-- A failing adapter for the concrete tests. -/
def failAdapter : Adapter := ⟨fun _ => .error "boom", false⟩

/-- Four raw rows, as in the documented example. -/
def fourRows : PyFrame :=
  [[("title", PyVal.vStr "T1")], [("title", PyVal.vStr "T2")],
   [("title", PyVal.vStr "T3")], [("title", PyVal.vStr "T4")]]

/-- An adapter returning the four rows on every invocation. -/
def okAdapter : Adapter := ⟨fun _ => .ok fourRows, true⟩

/-- A concrete scraper mapping with one failing and one succeeding source. -/
def scrapersW : List (String × Adapter) := [("x", failAdapter), ("y", okAdapter)]

/-- C1 witness: the concrete failing-plus-succeeding pair of adapters. -/
theorem claim_C1_witness :
    dictGet "x" scrapersW = some failAdapter ∧
    ("x" : String) ≠ "y" ∧
    (∃ merged meta,
      search_all_sources envId scrapersW "roof" ["x", "y"] none = .ok (merged, meta) ∧
      merged.Perm (fourRows.map (fun r => normalize_record envId r "y")) ∧
      ∃ sm, dictGet "source_results" meta = some (.vSrc sm) ∧
        dictGet "x" sm = some [("success", .mBool false), ("error", .mStr "boom"),
          ("count", .mNat 0), ("scraper_configured", .mBool failAdapter.configured)] ∧
        dictGet "y" sm = some [("success", .mBool true),
          ("count", .mNat fourRows.length),
          ("scraper_configured", .mBool okAdapter.configured)]) :=
  ⟨rfl, by decide,
    claim_C1 envId scrapersW "roof" "x" "y" "boom" failAdapter okAdapter fourRows
      rfl rfl (by decide) rfl rfl⟩

/-- C9 (code-bug exhibit): with one valid source whose adapter returns a
row, a progress callback raising at the 90 percent checkpoint makes
search_all_sources propagate the exception (the computed per-source
results are lost), while the same call with a non-raising callback
returns normally. -/
theorem claim_C9 :
    search_all_sources envId
      [("reddit", ⟨fun _ => .ok [[("title", PyVal.vStr "Roof fix")]], true⟩)]
      "roof" ["reddit"]
      (some (fun p => if p == 90 then some "callback boom" else none)) =
      .error "callback boom" ∧
    ∃ pr, search_all_sources envId
      [("reddit", ⟨fun _ => .ok [[("title", PyVal.vStr "Roof fix")]], true⟩)]
      "roof" ["reddit"] (some (fun _ => none)) = .ok pr := by
  exact ⟨rfl, ⟨_, rfl⟩⟩

/-- C10: a valid source repeated in the selection is searched once per
occurrence (its adapter is invoked count-many times), the merged frame
draws on the frames of every invocation, yet source_results holds exactly
one outcome for that source: the one of its last occurrence. -/
theorem claim_C10 (env : PyEnv) (scrapers : List (String × Adapter))
    (query a : String) (A : Adapter) (l1 l2 : List String)
    (hA : dictGet a scrapers = some A)
    (hmem : a ∈ l1) (hnot : a ∉ l2)
    (hvalid : ∀ s ∈ l1 ++ a :: l2, (dictGet s scrapers).isSome = true) :
    2 ≤ (l1 ++ a :: l2).count a ∧
    (unit_results env scrapers none (l1 ++ a :: l2)).countP (fun r => r.1 == a) =
      (l1 ++ a :: l2).count a ∧
    ∃ merged meta,
      search_all_sources env scrapers query (l1 ++ a :: l2) none = .ok (merged, meta) ∧
      merged.Perm ((unit_results env scrapers none (l1 ++ a :: l2)).map
        (fun r => r.2.1)).flatten ∧
      ∃ sm, dictGet "source_results" meta = some (.vSrc sm) ∧
        sm.countP (fun p => p.1 == a) = 1 ∧
        dictGet a sm =
          some (_search_source_with_progress env A a none l1.length
            (l1 ++ a :: l2).length).2 := by
  have hcount : 2 ≤ (l1 ++ a :: l2).count a := by
    have h1 : 0 < l1.count a := List.count_pos_iff.mpr hmem
    simp only [List.count_append, List.count_cons, beq_self_eq_true, if_true]
    omega
  have hcountP : (unit_results env scrapers none (l1 ++ a :: l2)).countP
      (fun r => r.1 == a) = (l1 ++ a :: l2).count a := by
    unfold unit_results
    rw [List.countP_map]
    simpa [List.enum, Function.comp] using countP_enumFrom_snd (l1 ++ a :: l2) a 0
  have hval := List.filter_eq_self.mpr hvalid
  have hrun := search_all_sources_run env scrapers query (l1 ++ a :: l2) hval (by simp)
  have hsplit : unit_results env scrapers none (l1 ++ a :: l2) =
      (List.enumFrom 0 l1).map
        (fun p => (p.2, _search_source_with_progress env
          ((dictGet p.2 scrapers).getD defaultAdapter) p.2 none p.1
          (l1 ++ a :: l2).length)) ++
      (a, _search_source_with_progress env A a none l1.length
        (l1 ++ a :: l2).length) ::
      (List.enumFrom (l1.length + 1) l2).map
        (fun p => (p.2, _search_source_with_progress env
          ((dictGet p.2 scrapers).getD defaultAdapter) p.2 none p.1
          (l1 ++ a :: l2).length)) := by
    unfold unit_results
    rw [show (l1 ++ a :: l2).enum = List.enumFrom 0 (l1 ++ a :: l2) from rfl,
      List.enumFrom_append]
    simp [List.enumFrom, hA]
  have hkeys : ∀ p ∈ (List.enumFrom (l1.length + 1) l2).map
      (fun p => (p.2, _search_source_with_progress env
        ((dictGet p.2 scrapers).getD defaultAdapter) p.2 none p.1
        (l1 ++ a :: l2).length)), p.1 ≠ a := by
    intro p hp
    rcases List.mem_map.mp hp with ⟨q, hq, rfl⟩
    intro he
    exact hnot (he ▸ snd_mem_of_mem_enumFrom hq)
  have hlook : dictGet a ((unit_results env scrapers none (l1 ++ a :: l2)).foldl
      (fun d r => dictSet d r.1 r.2.2) []) =
      some (_search_source_with_progress env A a none l1.length
        (l1 ++ a :: l2).length).2 := by
    rw [hsplit, List.foldl_append, List.foldl_cons]
    rw [dictGet_foldl_set_not_mem _ _ _ hkeys]
    exact dictGet_set_self _ _ _
  refine ⟨hcount, hcountP, _, _, hrun, merge_dataframes_perm _,
    (unit_results env scrapers none (l1 ++ a :: l2)).foldl
      (fun d r => dictSet d r.1 r.2.2) [], ?_, ?_, hlook⟩
  · rfl
  · exact dict_countP_eq_one _ a _
      (dictKeys_foldl_set_nodup _ [] (by simp [dictKeys])) hlook

/-- C10 witness: the same source selected twice. -/
theorem claim_C10_witness :
    2 ≤ (["x", "x"] : List String).count "x" ∧
    (unit_results envId [("x", okAdapter)] none ["x", "x"]).countP
      (fun r => r.1 == "x") = (["x", "x"] : List String).count "x" ∧
    ∃ merged meta,
      search_all_sources envId [("x", okAdapter)] "roof" ["x", "x"] none =
        .ok (merged, meta) ∧
      merged.Perm ((unit_results envId [("x", okAdapter)] none ["x", "x"]).map
        (fun r => r.2.1)).flatten ∧
      ∃ sm, dictGet "source_results" meta = some (.vSrc sm) ∧
        sm.countP (fun p => p.1 == "x") = 1 ∧
        dictGet "x" sm =
          some (_search_source_with_progress envId okAdapter "x" none 1 2).2 := by
  have hv : ∀ s ∈ (["x"] ++ "x" :: ([] : List String)),
      (dictGet s [("x", okAdapter)]).isSome = true := by
    intro s hs
    have hx : s = "x" := by simpa using hs
    subst hx
    rfl
  exact claim_C10 envId [("x", okAdapter)] "roof" "x" okAdapter ["x"] []
    rfl (by decide) (by decide) hv
